import Mathlib

/-!
Verification of the CroxyProxy downloader (`cpfrx_file.py` / `cpfrx_file_en.py`).

The development shallowly embeds the pure content of the program:
the three link-extraction rules of `get_real_url` (Python `re.search`
over the response body, specialised to the three concrete patterns of
the source), the post-processing of the captured text, the
`urllib.parse.urljoin` resolution used by rules (b) and (c), the
chunked download loop of `download`, the `zipfile` extraction of
`unzip`, the csrf-token lookup of `get_csrf`, and the exit-code
behaviour of the two `__main__` blocks.  Strings are modelled as
`List Char`, byte payloads as `List Nat`.
-/

/-! ## Generic pieces of the `re.search` embedding -/

/-- Strip an expected literal from the front of `s`; `none` when `s` does not
start with `pre`.  Used to embed literal parts of the source's regexes. -/
def stripPre : List Char → List Char → Option (List Char)
  | [], s => some s
  | _ :: _, [] => none
  | p :: ps, c :: cs => if p = c then stripPre ps cs else none

/-- Embedding of a greedy `[^"]*` followed by a literal `"`:
the characters before the first double quote, `none` when no double quote
follows. -/
def captureUpToQuote : List Char → Option (List Char)
  | [] => none
  | c :: cs => if c = '"' then some [] else (captureUpToQuote cs).map (c :: ·)

/-- Embedding of Python `re.search`: try the position matcher `f` at every
start position, leftmost first, returning the first capture. -/
def reSearch (f : List Char → Option (List Char)) : List Char → Option (List Char)
  | [] => f []
  | c :: cs =>
    match f (c :: cs) with
    | some cap => some cap
    | none => reSearch f cs

/-! ## Rule (a): `data-u="([^"]*)"` -/

/-- The literal part of the rule (a) pattern `data-u="([^"]*)"`. -/
def dataUPat : List Char := "data-u=\"".toList

/-- Rule (a) matcher at one start position. -/
def matchDataU (s : List Char) : Option (List Char) :=
  (stripPre dataUPat s).bind captureUpToQuote

/-- `re.search(r'data-u="([^"]*)"', html)`, group 1. -/
def dataUSearch (html : List Char) : Option (List Char) :=
  reSearch matchDataU html

/-- `.replace(r"\/", "/")`: left-to-right non-overlapping replacement of the
two-character sequence backslash-slash by a slash. -/
def replaceSlash : List Char → List Char
  | '\\' :: '/' :: rest => '/' :: replaceSlash rest
  | c :: rest => c :: replaceSlash rest
  | [] => []

/-- `.replace("&quot;", "")`: left-to-right removal of every `&quot;`. -/
def replaceQuot : List Char → List Char
  | '&' :: 'q' :: 'u' :: 'o' :: 't' :: ';' :: rest => replaceQuot rest
  | c :: rest => c :: replaceQuot rest
  | [] => []

/-- `.strip('"')`: drop leading and trailing double quotes. -/
def stripQuotes (s : List Char) : List Char :=
  ((s.dropWhile (· = '"')).reverse.dropWhile (· = '"')).reverse

/-- The whole rule (a) post-processing of the captured group
(`cpfrx_file.py` line 60). -/
def dataU_process (m : List Char) : List Char :=
  stripQuotes (replaceQuot (replaceSlash m))

/-! ## Rule (b): `window\.location\.href\s*=\s*"([^"]*)"` -/

/-- Python `\s` on the ASCII range. -/
def isSpaceChar (c : Char) : Bool :=
  c = ' ' || c = '\t' || c = '\n' || c = '\r' || c = '\x0b' || c = '\x0c'

/-- Greedy `\s*`: drop the maximal run of whitespace. -/
def skipSpaces : List Char → List Char
  | c :: cs => if isSpaceChar c then skipSpaces cs else c :: cs
  | [] => []

/-- The literal head of the rule (b) pattern. -/
def locPat : List Char := "window.location.href".toList

/-- Rule (b) matcher at one start position. -/
def matchLocHref (s : List Char) : Option (List Char) :=
  match stripPre locPat s with
  | none => none
  | some r =>
    match skipSpaces r with
    | '=' :: r2 =>
      match skipSpaces r2 with
      | '"' :: r3 => captureUpToQuote r3
      | _ => none
    | _ => none

/-- `re.search(r'window\.location\.href\s*=\s*"([^"]*)"', html)`, group 1. -/
def locSearch (html : List Char) : Option (List Char) :=
  reSearch matchLocHref html

/-! ## Rule (c): `<a[^>]*href="(/(?:stream|get|browser)/[^"]*)"` -/

/-- The `(?:stream|get|browser)` alternation, tried in the source's order;
returns the matched word and the remaining text. -/
def stripAltWord (s : List Char) : Option (List Char × List Char) :=
  match stripPre "stream".toList s with
  | some r => some ("stream".toList, r)
  | none =>
    match stripPre "get".toList s with
    | some r => some ("get".toList, r)
    | none =>
      match stripPre "browser".toList s with
      | some r => some ("browser".toList, r)
      | none => none

/-- The part of the rule (c) pattern after `[^>]*`:
`href="(/(?:stream|get|browser)/[^"]*)"`, returning group 1. -/
def hrefTail (s : List Char) : Option (List Char) :=
  match stripPre "href=\"/".toList s with
  | none => none
  | some r =>
    match stripAltWord r with
    | none => none
    | some (w, r2) =>
      match r2 with
      | '/' :: r3 => (captureUpToQuote r3).map (fun cap => '/' :: (w ++ '/' :: cap))
      | _ => none

/-- Greedy `[^>]*` with backtracking: the run of non-`>` characters is
consumed as long as possible and shortened until `hrefTail` matches, so the
rightmost viable `href=` inside the tag wins, as in Python's regex engine. -/
def greedyTail : List Char → Option (List Char)
  | [] => hrefTail []
  | c :: cs =>
    if c = '>' then hrefTail (c :: cs)
    else
      match greedyTail cs with
      | some cap => some cap
      | none => hrefTail (c :: cs)

/-- Rule (c) matcher at one start position (literal `<a`, then the greedy
attribute run). -/
def matchAnchor (s : List Char) : Option (List Char) :=
  match stripPre "<a".toList s with
  | none => none
  | some r => greedyTail r

/-- `re.search(r'<a[^>]*href="(/(?:stream|get|browser)/[^"]*)"', html)`,
group 1. -/
def anchorSearch (html : List Char) : Option (List Char) :=
  reSearch matchAnchor html

/-! ## Model of `urllib.parse.urljoin` (used by rules (b) and (c))

The source resolves possibly-relative extracted URLs with
`urllib.parse.urljoin(resp.url, ...)`.  The following definitions model
CPython's `urlsplit` / `urlunsplit` / `urljoin` on character lists. -/

/-- The five components returned by `urlsplit`. -/
structure SplitUrl where
  scheme : List Char
  netloc : List Char
  path : List Char
  query : List Char
  frag : List Char
deriving DecidableEq

/-- ASCII letters, as in CPython's scheme validity check. -/
def isAsciiAlpha (c : Char) : Bool :=
  ('a' ≤ c && c ≤ 'z') || ('A' ≤ c && c ≤ 'Z')

/-- CPython's `scheme_chars`: ASCII letters, digits, `+`, `-`, `.`. -/
def schemeChar (c : Char) : Bool :=
  isAsciiAlpha c || ('0' ≤ c && c ≤ '9') || c = '+' || c = '-' || c = '.'

/-- Split at the first occurrence of `sep`; `none` when absent
(`str.split(sep, 1)` when it splits). -/
def splitFirst (sep : Char) : List Char → Option (List Char × List Char)
  | [] => none
  | c :: cs =>
    if c = sep then some ([], cs)
    else (splitFirst sep cs).map (fun ab => (c :: ab.1, ab.2))

/-- Scheme detection of `urlsplit`: the text before the first `:` must be
nonempty, start with an ASCII letter and consist of scheme characters; the
scheme is lowercased. -/
def splitScheme (url : List Char) : Option (List Char × List Char) :=
  match splitFirst ':' url with
  | none => none
  | some (pre, rest) =>
    match pre with
    | [] => none
    | c :: cs =>
      if isAsciiAlpha c && (c :: cs).all schemeChar then
        some ((c :: cs).map Char.toLower, rest)
      else none

/-- `_splitnetloc`: the network location runs until the first `/`, `?`
or `#`. -/
def splitNetloc : List Char → List Char × List Char
  | [] => ([], [])
  | c :: cs =>
    if c = '/' ∨ c = '?' ∨ c = '#' then ([], c :: cs)
    else
      let ab := splitNetloc cs
      (c :: ab.1, ab.2)

/-- Split off the fragment at the first `#` (none when absent). -/
def splitFragD (u : List Char) : List Char × List Char :=
  match splitFirst '#' u with
  | some ab => ab
  | none => (u, [])

/-- Split off the query at the first `?` (none when absent). -/
def splitQueryD (u : List Char) : List Char × List Char :=
  match splitFirst '?' u with
  | some ab => ab
  | none => (u, [])

/-- Assemble the `SplitUrl` once scheme and netloc have been removed. -/
def finishSplit (scheme netloc u2 : List Char) : SplitUrl :=
  ⟨scheme, netloc, (splitQueryD (splitFragD u2).1).1,
    (splitQueryD (splitFragD u2).1).2, (splitFragD u2).2⟩

/-- Model of `urlsplit(url, defScheme)`. -/
def urlsplit (url defScheme : List Char) : SplitUrl :=
  match splitScheme url with
  | some (scheme, u1) =>
    match u1 with
    | '/' :: '/' :: rest => finishSplit scheme (splitNetloc rest).1 (splitNetloc rest).2
    | _ => finishSplit scheme [] u1
  | none =>
    match url with
    | '/' :: '/' :: rest => finishSplit defScheme (splitNetloc rest).1 (splitNetloc rest).2
    | _ => finishSplit defScheme [] url

/-- `uses_relative` of `urllib.parse` (the schemes exercised here are the
empty scheme, `http` and `https`). -/
def usesRelative : List (List Char) :=
  ["".toList, "ftp".toList, "http".toList, "gopher".toList, "nntp".toList,
   "imap".toList, "wais".toList, "file".toList, "https".toList,
   "shttp".toList, "mms".toList, "prospero".toList, "rtsp".toList,
   "rtsps".toList, "rtspu".toList, "sftp".toList, "svn".toList,
   "svn+ssh".toList, "ws".toList, "wss".toList]

/-- `uses_netloc` of `urllib.parse`. -/
def usesNetloc : List (List Char) :=
  ["".toList, "ftp".toList, "http".toList, "gopher".toList, "nntp".toList,
   "telnet".toList, "imap".toList, "wais".toList, "file".toList,
   "mms".toList, "https".toList, "shttp".toList, "snews".toList,
   "prospero".toList, "rtsp".toList, "rtsps".toList, "rtspu".toList,
   "rsync".toList, "svn".toList, "svn+ssh".toList, "sftp".toList,
   "nfs".toList, "git".toList, "git+ssh".toList, "ws".toList, "wss".toList]

/-- `uses_params` of `urllib.parse`. -/
def usesParams : List (List Char) :=
  ["".toList, "ftp".toList, "hdl".toList, "prospero".toList, "http".toList,
   "imap".toList, "https".toList, "shttp".toList, "rtsp".toList,
   "rtsps".toList, "rtspu".toList, "sip".toList, "sips".toList,
   "mms".toList, "sftp".toList, "tel".toList]

/-- Model of `urlunsplit`. -/
def urlunsplit (s : SplitUrl) : List Char :=
  let u1 :=
    if s.netloc ≠ [] ∨ (s.scheme ≠ [] ∧ s.scheme ∈ usesNetloc ∧ s.path.take 2 ≠ ['/', '/']) then
      '/' :: '/' :: (s.netloc ++
        (if s.path ≠ [] ∧ s.path.head? ≠ some '/' then '/' :: s.path else s.path))
    else s.path
  let u2 := if s.scheme ≠ [] then s.scheme ++ ':' :: u1 else u1
  let u3 := if s.query ≠ [] then u2 ++ '?' :: s.query else u2
  if s.frag ≠ [] then u3 ++ '#' :: s.frag else u3

/-- Split `url` as `a ++ '/' :: b` with `b` free of `/` (the last slash);
`none` when there is no slash. -/
def splitAtLastSlash : List Char → Option (List Char × List Char)
  | [] => none
  | c :: cs =>
    match splitAtLastSlash cs with
    | some (a, b) => some (c :: a, b)
    | none => if c = '/' then some ([], cs) else none

/-- `_splitparams`: split the params off at the first `;` at or after the
last `/` (anywhere when there is no `/`). -/
def splitParams (url : List Char) : List Char × List Char :=
  match splitAtLastSlash url with
  | some (a, b) =>
    match splitFirst ';' b with
    | some (b1, b2) => (a ++ '/' :: b1, b2)
    | none => (url, [])
  | none =>
    match splitFirst ';' url with
    | some (u1, u2) => (u1, u2)
    | none => (url, [])

/-- Model of `urlparse(url, defScheme)`: `urlsplit` plus the params
component, returned alongside the five-tuple. -/
def urlparse (url defScheme : List Char) : SplitUrl × List Char :=
  let s := urlsplit url defScheme
  if s.scheme ∈ usesParams ∧ ';' ∈ s.path then
    (⟨s.scheme, s.netloc, (splitParams s.path).1, s.query, s.frag⟩,
      (splitParams s.path).2)
  else (s, [])

/-- Model of `urlunparse`. -/
def urlunparse (s : SplitUrl) (params : List Char) : List Char :=
  if params ≠ [] then
    urlunsplit ⟨s.scheme, s.netloc, s.path ++ ';' :: params, s.query, s.frag⟩
  else urlunsplit s

/-- `str.split(sep)` for a one-character separator: always at least one
part. -/
def splitAll (sep : Char) : List Char → List (List Char)
  | [] => [[]]
  | c :: cs =>
    if c = sep then [] :: splitAll sep cs
    else
      match splitAll sep cs with
      | [] => [[c]]
      | p :: ps => (c :: p) :: ps

/-- `sep.flatten(parts)`. -/
def joinSep (sep : Char) : List (List Char) → List Char
  | [] => []
  | [a] => a
  | a :: rest => a ++ sep :: joinSep sep rest

/-- Filter out empty parts, keeping the final part unconditionally. -/
def filterLastKeep : List (List Char) → List (List Char)
  | [] => []
  | [z] => [z]
  | x :: rest => if x = [] then filterLastKeep rest else x :: filterLastKeep rest

/-- `segments[1:-1] = filter(None, segments[1:-1])`: drop empty parts
strictly between the first and the last. -/
def filterMiddle : List (List Char) → List (List Char)
  | [] => []
  | [a] => [a]
  | a :: rest => a :: filterLastKeep rest

/-- The `.`/`..` resolution loop of `urljoin` (a pop on an empty list is
ignored, as the `IndexError` is passed over). -/
def resolveSegs (segs : List (List Char)) : List (List Char) :=
  segs.foldl
    (fun acc seg =>
      if seg = ['.', '.'] then acc.dropLast
      else if seg = ['.'] then acc
      else acc ++ [seg]) []

/-- Building the merged segment list of `urljoin` from the base path and the
relative path. -/
def joinSegments (bpath upath : List Char) : List (List Char) :=
  if upath.head? = some '/' then splitAll '/' upath
  else
    let baseParts := splitAll '/' bpath
    let baseParts2 :=
      if baseParts.getLast? ≠ some [] then baseParts.dropLast else baseParts
    filterMiddle (baseParts2 ++ splitAll '/' upath)

/-- The body of `urljoin` once base and url have been `urlparse`d (`url` is
the original second argument, returned verbatim on a scheme mismatch). -/
def urljoinCore (url : List Char) (b : SplitUrl) (bparams : List Char)
    (u : SplitUrl) (uparams : List Char) : List Char :=
  if u.scheme ≠ b.scheme ∨ u.scheme ∉ usesRelative then url
  else if u.scheme ∈ usesNetloc ∧ u.netloc ≠ [] then
    urlunparse ⟨u.scheme, u.netloc, u.path, u.query, u.frag⟩ uparams
  else
    let netloc := if u.scheme ∈ usesNetloc then b.netloc else u.netloc
    if u.path = [] ∧ uparams = [] then
      urlunparse ⟨u.scheme, netloc, b.path,
        (if u.query = [] then b.query else u.query), u.frag⟩ bparams
    else
      let segments := joinSegments b.path u.path
      let resolved := resolveSegs segments
      let resolved2 :=
        if segments.getLast? = some ['.'] ∨ segments.getLast? = some ['.', '.'] then
          resolved ++ [[]]
        else resolved
      let joined := joinSep '/' resolved2
      urlunparse ⟨u.scheme, netloc,
        if joined = [] then ['/'] else joined, u.query, u.frag⟩ uparams

/-- Model of `urllib.parse.urljoin(base, url)`. -/
def urljoin (base url : List Char) : List Char :=
  if base = [] then url
  else if url = [] then base
  else
    urljoinCore url (urlparse base []).1 (urlparse base []).2
      (urlparse url (urlparse base []).1.scheme).1
      (urlparse url (urlparse base []).1.scheme).2

/-! ## The extraction phase of `get_real_url`

`get_real_url` (`cpfrx_file.py` lines 56-71) applies the three rules to the
response body `html`, with `respUrl` the working response's final URL; when
none matches it raises `RuntimeError`, modelled as the `error` case. -/

/-- The `RuntimeError` message of `cpfrx_file.py` line 71. -/
def extractionErrorMsg : List Char := "无法提取直链，可能页面结构变化".toList

/-- Rules (a), (b), (c) of `get_real_url`, in the source's order, applied to
the response body. -/
def get_real_url_extract (respUrl html : List Char) : Except (List Char) (List Char) :=
  match dataUSearch html with
  | some m => Except.ok (dataU_process m)
  | none =>
    match locSearch html with
    | some m => Except.ok (urljoin respUrl (replaceSlash m))
    | none =>
      match anchorSearch html with
      | some m => Except.ok (urljoin respUrl m)
      | none => Except.error extractionErrorMsg

/-! ## The download loop of `download` (`cpfrx_file.py` lines 83-98)

The response body arrives as a list of chunks (`r.iter_content`); bytes are
modelled as `Nat`.  The state carries the bytes written to
`downloaded_file.zip`, the `done` counter, and the progress lines printed so
far, each modelled as the triple `(done, total, percent)` of the f-string. -/

/-- The fixed chunk size passed to `iter_content`. -/
def chunkSize : Nat := 1024 * 64

/-- `total = int(r.headers.get("content-length", 0))`: an absent
`content-length` header is read as `0`. -/
def totalOf (contentLength : Option Nat) : Nat :=
  contentLength.getD 0

/-- State of the download loop. -/
structure DlState where
  file : List Nat
  done : Nat
  progressLines : List (Nat × Nat × Nat)
deriving DecidableEq

/-- One iteration of `for chunk in r.iter_content(...)`: an empty chunk is
skipped (`if not chunk: continue`); otherwise the chunk is written, `done`
is increased, and, only when `total` is nonzero, a progress line with
`percent = done * 100 // total` is printed. -/
def downloadStep (total : Nat) (st : DlState) (chunk : List Nat) : DlState :=
  if chunk = [] then st
  else
    { file := st.file ++ chunk
      done := st.done + chunk.length
      progressLines :=
        if total ≠ 0 then
          st.progressLines ++ [(st.done + chunk.length, total, (st.done + chunk.length) * 100 / total)]
        else st.progressLines }

/-- The whole loop, from an empty output file and a zero counter. -/
def downloadLoop (total : Nat) (chunks : List (List Nat)) : DlState :=
  chunks.foldl (downloadStep total) ⟨[], 0, []⟩

/-! ## The archive extraction of `unzip` (`cpfrx_file.py` lines 101-107)

Model of the `zipfile` library semantics used by `unzip`: opening
`downloaded_file.zip` with `zipfile.ZipFile(path, 'r')` raises
`BadZipFile` before anything is extracted when the file is not a valid zip
archive; otherwise `extractall` writes every entry into the destination
directory. -/

/-- The downloaded file, as `zipfile.ZipFile` sees it: either a valid
archive with its entries (name, contents), or not a zip at all. -/
inductive ZipContent
  | validZip (entries : List (List Char × List Nat))
  | notAZip
deriving DecidableEq

/-- The error taxonomy of the extractor (`zipfile.BadZipFile`). -/
inductive ArchiveError
  | badZipFile
deriving DecidableEq

/-- A destination directory: the files it holds. -/
structure DestDir where
  files : List (List Char × List Nat)
deriving DecidableEq

/-- `unzip`: open the downloaded file and extract all entries into the
destination directory; the result pairs the outcome with the directory
contents afterwards. -/
def unzip (dl : ZipContent) (d : DestDir) : Except ArchiveError Unit × DestDir :=
  match dl with
  | ZipContent.notAZip => (Except.error ArchiveError.badZipFile, d)
  | ZipContent.validZip entries => (Except.ok (), ⟨d.files ++ entries⟩)

/-! ## The token fetch of `get_csrf` (`cpfrx_file.py` lines 36-41)

`BeautifulSoup(...).find("input", attrs)` is modelled on the parsed list of
input elements of the landing page: the first input whose `name` attribute
is `csrf` is returned; subscripting `None` with `["value"]` raises
`TypeError`, and a missing `value` attribute raises `KeyError` — the
`ParseError` class of the specification. -/

/-- An input element of the parsed landing page. -/
structure InputTag where
  nameAttr : Option (List Char)
  valueAttr : Option (List Char)
deriving DecidableEq

/-- The failure modes of `get_csrf`'s parsing step. -/
inductive ParseError
  | noCsrfInput
  | noValueAttr
deriving DecidableEq

/-- `soup.find("input", {"name": "csrf"})`: the first input with
`name="csrf"`. -/
def findCsrfInput (doc : List InputTag) : Option InputTag :=
  doc.find? (fun t => t.nameAttr == some "csrf".toList)

/-- The parsing step of `get_csrf`: `soup.find(...)["value"]`. -/
def get_csrf (doc : List InputTag) : Except ParseError (List Char) :=
  match findCsrfInput doc with
  | none => Except.error ParseError.noCsrfInput
  | some t =>
    match t.valueAttr with
    | none => Except.error ParseError.noValueAttr
    | some v => Except.ok v

/-! ## Exit codes of the two `__main__` blocks

The abstract outcome of the `download(target, local); unzip(local)` run,
at the granularity of the `try` blocks of the two variants. -/

/-- How one invocation's pipeline ends. -/
inductive RunResult
  | ok
  | csrfNetworkError
  | downloadNetworkError
  | extractionFailed
  | badZip
  | otherError
deriving DecidableEq

/-- Exit code of `cpfrx_file.py`'s `__main__`: wrong argument count exits
`1`; every exception of the pipeline is caught by `except Exception` and
exits `2`; otherwise the process ends normally with `0`. -/
def mainExitZh (argc : Nat) (r : RunResult) : Nat :=
  if argc ≠ 3 then 1
  else
    match r with
    | RunResult.ok => 0
    | _ => 2

/-- Exit code of `cpfrx_file_en.py`'s `__main__`: as in `mainExitZh`,
except that the handlers inside `get_csrf`, `download` and `unzip` call
`sys.exit(1)` on `RequestException` / `BadZipFile`, and `SystemExit` is not
an `Exception`, so those failures end the process with code `1`. -/
def mainExitEn (argc : Nat) (r : RunResult) : Nat :=
  if argc ≠ 3 then 1
  else
    match r with
    | RunResult.ok => 0
    | RunResult.csrfNetworkError => 1
    | RunResult.downloadNetworkError => 1
    | RunResult.badZip => 1
    | RunResult.extractionFailed => 2
    | RunResult.otherError => 2

/-! ## Predicates used to state the relative-URL claim -/

/-- A syntactically valid scheme for `urlsplit`: nonempty, leading ASCII
letter, all scheme characters. -/
def schemeOk : List Char → Bool
  | [] => false
  | c :: cs => isAsciiAlpha c && (c :: cs).all schemeChar

/-- Whether the text begins with `//` (a netloc-carrying reference). -/
def startsDslash : List Char → Bool
  | '/' :: '/' :: _ => true
  | _ => false

/-! ## Concrete bodies used to witness the extraction claims -/

def c3Base : List Char := "https://proxy.example.com/servers".toList

def c3Html : List Char :=
  "<html><script>window.location.href = \"\\/stream\\/abc\"</script></html>".toList

def c3Y : List Char := "\\/stream\\/abc".toList

def c1Html : List Char :=
  "<div data-u=\"https:\\/\\/cdn.example.com\\/get\\/abc\"></div><script>window.location.href = \"\\/get\\/z\"</script><a href=\"/get/z\">x</a>".toList

def c2Html : List Char :=
  "<div data-u=\"https:\\/\\/cdn.example.com\\/get\\/abc\"></div>".toList

def c10Html : List Char :=
  "<b data-u=\"\"></b><script>window.location.href = \"\\/x\"</script><a href=\"/stream/q\">y</a>".toList

/-! ## Helper lemmas -/

/-- Both components of the download loop state after folding from an
arbitrary state. -/
theorem downloadLoop_foldl (total : Nat) (chunks : List (List Nat)) (st : DlState) :
    (chunks.foldl (downloadStep total) st).file = st.file ++ chunks.flatten ∧
    (chunks.foldl (downloadStep total) st).done = st.done + chunks.flatten.length := by
  induction chunks generalizing st with
  | nil => simp
  | cons c cs ih =>
    simp only [List.foldl_cons, List.flatten_cons]
    rcases ih (downloadStep total st c) with ⟨h1, h2⟩
    by_cases hc : c = []
    · subst hc
      rw [h1, h2]
      simp [downloadStep]
    · rw [h1, h2]
      simp [downloadStep, hc, List.append_assoc, Nat.add_assoc]

/-- With a zero total, the loop never prints. -/
theorem downloadLoop_progress_zero (chunks : List (List Nat)) (st : DlState) :
    (chunks.foldl (downloadStep 0) st).progressLines = st.progressLines := by
  induction chunks generalizing st with
  | nil => rfl
  | cons c cs ih =>
    simp only [List.foldl_cons]
    rw [ih]
    by_cases hc : c = [] <;> simp [downloadStep, hc]

/-- Empty chunks contribute nothing to the concatenation. -/
theorem join_filter_nonempty (l : List (List Nat)) :
    (l.filter (fun c => !c.isEmpty)).flatten = l.flatten := by
  induction l with
  | nil => rfl
  | cons c cs ih =>
    cases c with
    | nil => simpa using ih
    | cons b bs => simp [List.filter_cons, ih]

/-! ## Claim theorems -/

/-- C4: for every HTML body in which none of the three extraction rules
matches (no `data-u` attribute, no `window.location.href = "..."`
assignment, and no anchor whose `href` begins with `/stream/`, `/get/` or
`/browser/`), link resolution fails with the `RuntimeError` of
`get_real_url` (the specification's `ExtractionError`) rather than
returning any URL. -/
theorem no_rule_extraction_error (respUrl html : List Char)
    (ha : dataUSearch html = none) (hb : locSearch html = none)
    (hc : anchorSearch html = none) :
    get_real_url_extract respUrl html = Except.error extractionErrorMsg := by
  simp [get_real_url_extract, ha, hb, hc]

theorem no_rule_extraction_error_witness :
    get_real_url_extract "https://www.a.cpfrx.info/servers".toList "<p>hello</p>".toList
      = Except.error extractionErrorMsg :=
  no_rule_extraction_error "https://www.a.cpfrx.info/servers".toList
    "<p>hello</p>".toList (by decide) (by decide) (by decide)

/-- C5: for every response body delivered as an arbitrary sequence of
chunks, the download loop writes exactly the body's bytes to the output
file: the file contents equal the concatenation of the (equivalently, the
non-empty) chunks in arrival order, and the byte counter equals the total
length; zero-length chunks are skipped and contribute nothing. -/
theorem download_byte_exact (total : Nat) (chunks : List (List Nat)) :
    (downloadLoop total chunks).file = chunks.flatten ∧
    (downloadLoop total chunks).done = chunks.flatten.length ∧
    (downloadLoop total chunks).file = (chunks.filter (fun c => !c.isEmpty)).flatten := by
  rcases downloadLoop_foldl total chunks ⟨[], 0, []⟩ with ⟨h1, h2⟩
  refine ⟨?_, ?_, ?_⟩
  · simpa [downloadLoop] using h1
  · simpa [downloadLoop] using h2
  · rw [join_filter_nonempty]
    simpa [downloadLoop] using h1

/-- C6 counterexample: with the `content-length` header absent the total is
`0`, and although three bytes are transferred the loop prints no progress
line at all — refuting "progress is still reported, merely lacking the
percent figure". -/
theorem progress_unknown_total_counterexample :
    totalOf none = 0 ∧
    (downloadLoop (totalOf none) [[1, 2, 3]]).done = 3 ∧
    (downloadLoop (totalOf none) [[1, 2, 3]]).progressLines = [] :=
  ⟨rfl, rfl, rfl⟩

/-- C6 amended: when the `content-length` header is absent or zero the
total is treated as `0` and the loop prints no per-chunk progress output at
all (the bytes are still written correctly); a progress line, with a
percentage, is printed only when the total is nonzero. -/
theorem progress_unknown_total_silent (chunks : List (List Nat)) :
    totalOf none = 0 ∧ totalOf (some 0) = 0 ∧
    (downloadLoop 0 chunks).progressLines = [] ∧
    (downloadLoop 0 chunks).file = chunks.flatten ∧
    (downloadLoop 2 [[7]]).progressLines = [(1, 2, 50)] :=
  ⟨rfl, rfl, downloadLoop_progress_zero chunks ⟨[], 0, []⟩,
    (download_byte_exact 0 chunks).1, rfl⟩

/-- C7 counterexample: in `cpfrx_file_en.py`, a network failure inside
`download`'s `try` block calls `sys.exit(1)`, so with a correct argument
count the process exits with code `1`, not `2`. -/
theorem exit_code_en_counterexample :
    mainExitEn 3 RunResult.downloadNetworkError = 1 ∧ (1 : Nat) ≠ 2 :=
  ⟨rfl, by decide⟩

/-- C7 amended: `cpfrx_file.py` exits `0` on success, `1` exactly on a
wrong argument count, and `2` on every pipeline failure; `cpfrx_file_en.py`
keeps `0`/`1` for success and argument count, but its inner handlers exit
`1` on network failures in `get_csrf`/`download` and on a bad zip in
`unzip`, while only failures reaching the top-level handler (such as
extraction failure) exit `2`. -/
theorem exit_codes_amended (argc : Nat) (r : RunResult) :
    (argc ≠ 3 → mainExitZh argc r = 1) ∧
    (mainExitZh 3 RunResult.ok = 0) ∧
    (r ≠ RunResult.ok → mainExitZh 3 r = 2) ∧
    (mainExitEn 3 RunResult.ok = 0) ∧
    (mainExitEn 3 RunResult.csrfNetworkError = 1) ∧
    (mainExitEn 3 RunResult.downloadNetworkError = 1) ∧
    (mainExitEn 3 RunResult.badZip = 1) ∧
    (mainExitEn 3 RunResult.extractionFailed = 2) ∧
    (mainExitEn 3 RunResult.otherError = 2) ∧
    (argc ≠ 3 → mainExitEn argc r = 1) := by
  refine ⟨fun h => by simp [mainExitZh, h], rfl, fun h => ?_, rfl, rfl, rfl, rfl, rfl, rfl,
    fun h => by simp [mainExitEn, h]⟩
  cases r <;> simp [mainExitZh] at h ⊢

theorem exit_codes_amended_witness :
    mainExitZh 2 RunResult.badZip = 1 ∧ mainExitZh 3 RunResult.badZip = 2 ∧
    mainExitEn 2 RunResult.badZip = 1 :=
  ⟨(exit_codes_amended 2 RunResult.badZip).1 (by decide),
   (exit_codes_amended 3 RunResult.badZip).2.2.1 (by decide),
   (exit_codes_amended 2 RunResult.badZip).2.2.2.2.2.2.2.2.2 (by decide)⟩

/-- C8: extracting a file that is not a valid zip archive fails with
`BadZipFile` (the specification's `ArchiveError`) raised at open, before
any entry is extracted, so the destination directory is left unmodified
beyond the already-downloaded file; a valid archive has all its entries
extracted into the directory. -/
theorem unzip_invalid_zip (d : DestDir) (entries : List (List Char × List Nat)) :
    unzip ZipContent.notAZip d = (Except.error ArchiveError.badZipFile, d) ∧
    unzip (ZipContent.validZip entries) d = (Except.ok (), ⟨d.files ++ entries⟩) :=
  ⟨rfl, rfl⟩

/-- C9: when the landing page has no input element named `csrf`,
`get_csrf` fails (subscripting `None` raises, the specification's
`ParseError`) rather than returning a value; when such an element exists
and carries a `value` attribute, that attribute is returned. -/
theorem get_csrf_spec (doc : List InputTag) (t : InputTag) (v : List Char) :
    (findCsrfInput doc = none → get_csrf doc = Except.error ParseError.noCsrfInput) ∧
    (findCsrfInput doc = some t → t.valueAttr = some v → get_csrf doc = Except.ok v) := by
  constructor
  · intro h
    simp [get_csrf, h]
  · intro h hv
    simp [get_csrf, h, hv]

theorem get_csrf_spec_witness :
    get_csrf [] = Except.error ParseError.noCsrfInput ∧
    get_csrf [⟨some "csrf".toList, some "tok123".toList⟩] = Except.ok "tok123".toList :=
  ⟨(get_csrf_spec [] ⟨none, none⟩ []).1 rfl,
   (get_csrf_spec [⟨some "csrf".toList, some "tok123".toList⟩]
      ⟨some "csrf".toList, some "tok123".toList⟩ "tok123".toList).2 (by decide) rfl⟩

/-- A quote-free group before a closing quote is captured whole. -/
theorem captureUpToQuote_append (X r : List Char) (hx : '"' ∉ X) :
    captureUpToQuote (X ++ '"' :: r) = some X := by
  induction X with
  | nil => simp [captureUpToQuote]
  | cons c cs ih =>
    simp only [List.mem_cons, not_or] at hx
    have hc : ¬ (c = '"') := fun hh => hx.1 hh.symm
    simp [captureUpToQuote, hc, ih hx.2]

/-- Stripping a literal that is literally there succeeds. -/
theorem stripPre_append (pre rest : List Char) :
    stripPre pre (pre ++ rest) = some rest := by
  induction pre with
  | nil => rfl
  | cons p ps ih => simp [stripPre, ih]

/-- A search succeeds when the matcher already succeeds at the start. -/
theorem reSearch_isSome_self (f : List Char → Option (List Char)) (s : List Char)
    (h : (f s).isSome) : (reSearch f s).isSome := by
  cases s with
  | nil => simpa [reSearch] using h
  | cons c cs =>
    cases hf : f (c :: cs) with
    | none => rw [hf] at h; simp at h
    | some cap => simp [reSearch, hf]

/-- A search succeeds when the matcher succeeds at some position. -/
theorem reSearch_isSome_append (f : List Char → Option (List Char)) (l s : List Char)
    (h : (f s).isSome) : (reSearch f (l ++ s)).isSome := by
  induction l with
  | nil => simpa using reSearch_isSome_self f s h
  | cons c cs ih =>
    rw [List.cons_append]
    cases hf : f (c :: (cs ++ s)) with
    | some cap => simp [reSearch, hf]
    | none => simpa [reSearch, hf] using ih

/-- C1: for every HTML body that contains a `data-u="X"` attribute, the
rule set of `get_real_url` returns the processed captured value of rule
(a), even when a `window.location.href = "..."` assignment (rule (b)) and
an anchor with a `/stream/`, `/get/` or `/browser/` href (rule (c)) are
also present: rule (a) strictly takes priority over the fallbacks. -/
theorem ruleA_priority (respUrl html X Yb Yc l r : List Char)
    (hx : '"' ∉ X)
    (hin : html = l ++ dataUPat ++ X ++ '"' :: r)
    (hb : locSearch html = some Yb)
    (hc : anchorSearch html = some Yc) :
    ∃ Y, dataUSearch html = some Y ∧
      get_real_url_extract respUrl html = Except.ok (dataU_process Y) := by
  have hm : matchDataU (dataUPat ++ (X ++ '"' :: r)) = some X := by
    rw [matchDataU, stripPre_append]
    simpa using captureUpToQuote_append X r hx
  have hsome : (dataUSearch html).isSome := by
    rw [hin]
    have heq : l ++ dataUPat ++ X ++ '"' :: r = l ++ (dataUPat ++ (X ++ '"' :: r)) := by
      simp [List.append_assoc]
    rw [heq]
    exact reSearch_isSome_append matchDataU l (dataUPat ++ (X ++ '"' :: r))
      (by rw [hm]; rfl)
  obtain ⟨Y, hY⟩ := Option.isSome_iff_exists.mp hsome
  exact ⟨Y, hY, by simp [get_real_url_extract, hY]⟩


theorem ruleA_priority_witness :
    ∃ Y, dataUSearch c1Html = some Y ∧
      get_real_url_extract "https://www.a.cpfrx.info/servers".toList c1Html
        = Except.ok (dataU_process Y) :=
  ruleA_priority "https://www.a.cpfrx.info/servers".toList c1Html
    "https:\\/\\/cdn.example.com\\/get\\/abc".toList
    "\\/get\\/z".toList "/get/z".toList
    "<div ".toList
    "></div><script>window.location.href = \"\\/get\\/z\"</script><a href=\"/get/z\">x</a>".toList
    (by decide) (by decide) (by decide) (by decide)

/-- C2: whenever rule (a) captures `X`, the extractor returns `X` with
every `\/` replaced by `/` (left to right), every `&quot;` removed, and
surrounding double quotes stripped; in particular the capture
`https:\/\/cdn.example.com\/get\/abc` is processed to exactly
`https://cdn.example.com/get/abc`. -/
theorem ruleA_processing (respUrl html X : List Char)
    (h : dataUSearch html = some X) :
    get_real_url_extract respUrl html
      = Except.ok (stripQuotes (replaceQuot (replaceSlash X))) ∧
    dataU_process "https:\\/\\/cdn.example.com\\/get\\/abc".toList
      = "https://cdn.example.com/get/abc".toList :=
  ⟨by simp [get_real_url_extract, h, dataU_process], by decide⟩


theorem ruleA_processing_witness :
    get_real_url_extract "https://www.a.cpfrx.info/servers".toList c2Html
      = Except.ok (stripQuotes (replaceQuot (replaceSlash
          "https:\\/\\/cdn.example.com\\/get\\/abc".toList))) ∧
    dataU_process "https:\\/\\/cdn.example.com\\/get\\/abc".toList
      = "https://cdn.example.com/get/abc".toList :=
  ruleA_processing "https://www.a.cpfrx.info/servers".toList c2Html
    "https:\\/\\/cdn.example.com\\/get\\/abc".toList (by decide)

/-- C10: an empty `data-u=""` attribute still matches rule (a) (the walrus
test is on the match object, not on the captured text), so the extractor
returns the empty string and never falls through to rules (b) or (c), even
when both fallback patterns are present in the body. -/
theorem empty_dataU_matches (respUrl html Yb Yc : List Char)
    (h : dataUSearch html = some [])
    (hb : locSearch html = some Yb)
    (hc : anchorSearch html = some Yc) :
    get_real_url_extract respUrl html = Except.ok [] := by
  simp [get_real_url_extract, h]
  rfl


theorem empty_dataU_matches_witness :
    get_real_url_extract "https://www.a.cpfrx.info/servers".toList c10Html
      = Except.ok [] :=
  empty_dataU_matches "https://www.a.cpfrx.info/servers".toList c10Html
    "\\/x".toList "/stream/q".toList (by decide) (by decide) (by decide)

/-! ## Lemmas towards the relative-URL resolution claim -/

/-- `splitFirst` finds a separator placed after separator-free text. -/
theorem splitFirst_no_sep (sep : Char) (s rest : List Char) (h : sep ∉ s) :
    splitFirst sep (s ++ sep :: rest) = some (s, rest) := by
  induction s with
  | nil => simp [splitFirst]
  | cons c cs ih =>
    simp only [List.mem_cons, not_or] at h
    have hc : ¬ (c = sep) := fun hh => h.1 hh.symm
    simp [splitFirst, hc, ih h.2]

/-- No scheme character is a colon. -/
theorem schemeChar_ne_colon (c : Char) (h : schemeChar c = true) : c ≠ ':' := by
  rintro rfl
  simp [schemeChar, isAsciiAlpha] at h

/-- `splitScheme` recognises an already-lowercase well-formed scheme. -/
theorem splitScheme_append (s rest : List Char) (hok : schemeOk s = true)
    (hlow : s.map Char.toLower = s) :
    splitScheme (s ++ ':' :: rest) = some (s, rest) := by
  cases s with
  | nil => simp [schemeOk] at hok
  | cons c cs =>
    simp only [schemeOk, Bool.and_eq_true] at hok
    have hall : (c :: cs).all schemeChar = true := hok.2
    have hnc : ':' ∉ (c :: cs) := by
      intro hmem
      exact schemeChar_ne_colon ':' (List.all_eq_true.mp hall ':' hmem) rfl
    simp only [splitScheme, splitFirst_no_sep ':' (c :: cs) rest hnc]
    rw [if_pos (by rw [Bool.and_eq_true]; exact hok), hlow]

/-- `splitNetloc` stops exactly at the start of a (slash-led or empty)
path when the netloc has no delimiter characters. -/
theorem splitNetloc_append (n p : List Char)
    (hn : ∀ c ∈ n, c ≠ '/' ∧ c ≠ '?' ∧ c ≠ '#')
    (hp : p = [] ∨ ∃ t, p = '/' :: t) :
    splitNetloc (n ++ p) = (n, p) := by
  induction n with
  | nil =>
    rcases hp with h | ⟨t, h⟩ <;> subst h
    · rfl
    · simp [splitNetloc]
  | cons c cs ih =>
    have hc := hn c (List.mem_cons_self c cs)
    have hcond : ¬ (c = '/' ∨ c = '?' ∨ c = '#') := by
      push_neg
      exact ⟨hc.1, hc.2.1, hc.2.2⟩
    simp [splitNetloc, hcond, ih (fun x hx => hn x (List.mem_cons_of_mem c hx))]

/-- `urlsplit` of a well-formed absolute base URL. -/
theorem urlsplit_abs_base (s n p : List Char) (hok : schemeOk s = true)
    (hlow : s.map Char.toLower = s)
    (hn : ∀ c ∈ n, c ≠ '/' ∧ c ≠ '?' ∧ c ≠ '#')
    (hp : p = [] ∨ ∃ t, p = '/' :: t) :
    urlsplit (s ++ ':' :: '/' :: '/' :: (n ++ p)) [] = finishSplit s n p := by
  simp only [urlsplit, splitScheme_append s ('/' :: '/' :: (n ++ p)) hok hlow,
    splitNetloc_append n p hn hp]

/-- `urlsplit` of a scheme-free, netloc-free reference keeps it whole as
the path part and takes the default scheme. -/
theorem urlsplit_noscheme (u ds : List Char) (h1 : splitScheme u = none)
    (h2 : startsDslash u = false) :
    urlsplit u ds = finishSplit ds [] u := by
  simp only [urlsplit, h1]
  split
  · simp [startsDslash] at h2
  · rfl

/-- `urlparse` never changes the scheme or the netloc of `urlsplit`. -/
theorem urlparse_scheme_netloc (url d : List Char) :
    (urlparse url d).1.scheme = (urlsplit url d).scheme ∧
    (urlparse url d).1.netloc = (urlsplit url d).netloc := by
  simp only [urlparse]
  by_cases h : (urlsplit url d).scheme ∈ usesParams ∧ ';' ∈ (urlsplit url d).path <;>
    simp [h]

/-- `urlunsplit` with a nonempty scheme and netloc yields a URL carrying
both. -/
theorem urlunsplit_abs (s n P Q F : List Char) (hs : s ≠ []) (hn : n ≠ []) :
    ∃ rest, urlunsplit ⟨s, n, P, Q, F⟩ = s ++ ':' :: '/' :: '/' :: (n ++ rest) := by
  refine ⟨(if P ≠ [] ∧ P.head? ≠ some '/' then '/' :: P else P)
      ++ ((if Q ≠ [] then '?' :: Q else []) ++ (if F ≠ [] then '#' :: F else [])), ?_⟩
  simp only [urlunsplit]
  rw [if_pos (Or.inl hn), if_pos hs]
  by_cases hq : Q = [] <;> by_cases hf : F = [] <;>
    simp [hq, hf, List.append_assoc]

/-- `urlunparse` with a nonempty scheme and netloc yields a URL carrying
both. -/
theorem urlunparse_abs (s n P Q F params : List Char) (hs : s ≠ []) (hn : n ≠ []) :
    ∃ rest, urlunparse ⟨s, n, P, Q, F⟩ params = s ++ ':' :: '/' :: '/' :: (n ++ rest) := by
  rw [urlunparse]
  by_cases hpar : params = []
  · rw [if_neg (fun h => h hpar)]
    exact urlunsplit_abs s n P Q F hs hn
  · rw [if_pos hpar]
    exact urlunsplit_abs s n (P ++ ';' :: params) Q F hs hn

/-- Every branch of `urljoinCore` below the scheme test keeps the base's
scheme and netloc in front. -/
theorem urljoinCore_abs (url bparams uparams : List Char) (b u : SplitUrl)
    (s n : List Char)
    (hbs : b.scheme = s) (hbn : b.netloc = n)
    (hus : u.scheme = s) (hun : u.netloc = [])
    (hs : s ≠ []) (hn : n ≠ [])
    (hrelS : s ∈ usesRelative) (hnetS : s ∈ usesNetloc) :
    ∃ rest, urljoinCore url b bparams u uparams
      = s ++ ':' :: '/' :: '/' :: (n ++ rest) := by
  simp only [urljoinCore, hbs, hbn, hus, hun]
  rw [if_neg (by
    rintro (h1 | h2)
    · exact h1 rfl
    · exact h2 hrelS)]
  rw [if_neg (fun h => h.2 rfl)]
  have hloc : (if s ∈ usesNetloc then n else ([] : List Char)) = n := if_pos hnetS
  rw [hloc]
  by_cases hpq : u.path = [] ∧ uparams = []
  · rw [if_pos hpq]
    exact urlunparse_abs s n b.path (if u.query = [] then b.query else u.query) u.frag
      bparams hs hn
  · rw [if_neg hpq]
    exact urlunparse_abs s n _ u.query u.frag uparams hs hn

/-- C3: for every HTML body without a `data-u` attribute but with a
`window.location.href = "Y"` assignment, the extractor returns `Y` with
`\/` unescaped, resolved with `urljoin` against the working response's
final URL; and whenever that base URL is absolute (well-formed scheme and
nonempty host) and the unescaped `Y` is relative (no scheme of its own, not
`//`-led), the resolved URL is absolute: it carries the scheme and the
host. -/
theorem ruleB_resolves_relative (respUrl html Y s n p : List Char)
    (h0 : dataUSearch html = none)
    (h1 : locSearch html = some Y)
    (hbase : respUrl = s ++ ':' :: '/' :: '/' :: (n ++ p))
    (hok : schemeOk s = true)
    (hlow : s.map Char.toLower = s)
    (hrelS : s ∈ usesRelative) (hnetS : s ∈ usesNetloc)
    (hn : n ≠ [])
    (hnc : ∀ c ∈ n, c ≠ '/' ∧ c ≠ '?' ∧ c ≠ '#')
    (hp : p = [] ∨ ∃ t, p = '/' :: t)
    (hy1 : splitScheme (replaceSlash Y) = none)
    (hy2 : startsDslash (replaceSlash Y) = false) :
    get_real_url_extract respUrl html
      = Except.ok (urljoin respUrl (replaceSlash Y)) ∧
    ∃ rest, urljoin respUrl (replaceSlash Y)
      = s ++ ':' :: '/' :: '/' :: (n ++ rest) := by
  have hs : s ≠ [] := by
    rintro rfl
    simp [schemeOk] at hok
  have hbne : respUrl ≠ [] := by
    rw [hbase]
    rcases s with _ | ⟨c, cs⟩
    · exact absurd rfl hs
    · simp
  refine ⟨by simp [get_real_url_extract, h0, h1], ?_⟩
  by_cases hy0 : replaceSlash Y = []
  · refine ⟨p, ?_⟩
    rw [urljoin, if_neg hbne, if_pos hy0]
    exact hbase
  · have hbsplit : urlsplit respUrl [] = finishSplit s n p := by
      rw [hbase]
      exact urlsplit_abs_base s n p hok hlow hnc hp
    have hb1 : (urlparse respUrl []).1.scheme = s := by
      rw [(urlparse_scheme_netloc respUrl []).1, hbsplit]
      rfl
    have hb2 : (urlparse respUrl []).1.netloc = n := by
      rw [(urlparse_scheme_netloc respUrl []).2, hbsplit]
      rfl
    have husplit : urlsplit (replaceSlash Y) ((urlparse respUrl []).1.scheme)
        = finishSplit s [] (replaceSlash Y) := by
      rw [hb1]
      exact urlsplit_noscheme (replaceSlash Y) s hy1 hy2
    have hu1 : (urlparse (replaceSlash Y) ((urlparse respUrl []).1.scheme)).1.scheme = s := by
      rw [(urlparse_scheme_netloc (replaceSlash Y) _).1, husplit]
      rfl
    have hu2 : (urlparse (replaceSlash Y) ((urlparse respUrl []).1.scheme)).1.netloc = [] := by
      rw [(urlparse_scheme_netloc (replaceSlash Y) _).2, husplit]
      rfl
    obtain ⟨rest, hrest⟩ := urljoinCore_abs (replaceSlash Y)
      (urlparse respUrl []).2 (urlparse (replaceSlash Y) ((urlparse respUrl []).1.scheme)).2
      (urlparse respUrl []).1 (urlparse (replaceSlash Y) ((urlparse respUrl []).1.scheme)).1
      s n hb1 hb2 hu1 hu2 hs hn hrelS hnetS
    refine ⟨rest, ?_⟩
    rw [urljoin, if_neg hbne, if_neg hy0]
    exact hrest

theorem ruleB_resolves_relative_witness :
    get_real_url_extract c3Base c3Html
      = Except.ok (urljoin c3Base (replaceSlash c3Y)) ∧
    ∃ rest, urljoin c3Base (replaceSlash c3Y)
      = "https".toList ++ ':' :: '/' :: '/' :: ("proxy.example.com".toList ++ rest) :=
  ruleB_resolves_relative c3Base c3Html c3Y "https".toList
    "proxy.example.com".toList "/servers".toList
    (by decide) (by decide) (by decide) (by decide) (by decide)
    (by decide) (by decide) (by decide) (by decide)
    (Or.inr ⟨"servers".toList, by decide⟩) (by decide) (by decide)
